import Mathlib

/-!
Verification of script_for_github_repo_stats.py against its specification.

The Python source is shallowly embedded: each Python function that the
claims depend on is translated into an executable Lean definition with the
same name, and the claims are settled as theorems about those definitions.
Values decoded from JSON are modelled by explicit structures in which an
absent key is an Option none (or a documented collapsed default, when the
Python code itself collapses the absence with dict.get defaults).
-/

namespace GhStats

/-! ## Python string primitives

Python compares strings lexicographically by Unicode code point.  The
window filter on line 142 of the source compares ISO date strings with
the chained comparison start_date < created_at < end_date, and line 104
uses str.startswith. -/

/-- Lexicographic strict less-than on character lists, by code point,
as Python compares strings. -/
def pyListLt : List Char → List Char → Bool
  | [], [] => false
  | [], _ :: _ => true
  | _ :: _, [] => false
  | x :: xs, y :: ys =>
    if x.toNat < y.toNat then true
    else if x.toNat = y.toNat then pyListLt xs ys
    else false

/-- Python string strict less-than. -/
def pyStrLt (a b : String) : Bool := pyListLt a.data b.data

/-- First list is a leading segment of the second, character by
character. -/
def startsWithL : List Char → List Char → Bool
  | [], _ => true
  | _ :: _, [] => false
  | p :: ps, c :: cs => p == c && startsWithL ps cs

/-- Python str.startswith. -/
def pyStartsWith (s pre : String) : Bool := startsWithL pre.data s.data

theorem pyListLt_irrefl (l : List Char) : pyListLt l l = false := by
  induction l with
  | nil => rfl
  | cons x xs ih => simp [pyListLt, ih]

theorem pyStrLt_irrefl (s : String) : pyStrLt s s = false :=
  pyListLt_irrefl s.data

/-! ## Commits and the contributor tally

Source lines 94 to 107.  A commit decoded from JSON is modelled by the
fields the loop reads.  In the Python code, commit.get("author", default
empty dict) is truthy only when it is a non-empty dict; all falsy cases
(missing key, null value, empty dict) are modelled by none.  When the
author dict is truthy the code reads author.get("login", "") which
collapses a missing login key to the empty string; the model stores that
collapsed string directly.  Likewise message models
commit.get("commit", empty).get("message", "") collapsed to a string. -/

structure Author where
  login : String
  deriving DecidableEq, Repr

structure Commit where
  author : Option Author
  message : String
  created_at : String
  deriving DecidableEq, Repr

/-- Lookup in an insertion-ordered association list, modelling a read of
the Python dict named result. -/
def lookupT : List (String × Nat) → String → Option Nat
  | [], _ => none
  | (k, v) :: rest, l => if k = l then some v else lookupT rest l

/-- Increment the value stored at a key, modelling the statement
incrementing result at login by one. -/
def bumpT : List (String × Nat) → String → List (String × Nat)
  | [], _ => []
  | (k, v) :: rest, l => if k = l then (k, v + 1) :: rest else (k, v) :: bumpT rest l

/-- One iteration of the loop at source lines 96 to 105: skip commits
whose author is falsy, register a first-seen login with value 0, and
increment unless the message starts with "Merge". -/
def stepCommit (result : List (String × Nat)) (c : Commit) : List (String × Nat) :=
  match c.author with
  | none => result
  | some a =>
    let r1 := if (lookupT result a.login).isSome then result else result ++ [(a.login, 0)]
    if pyStartsWith c.message ("Merge") then r1 else bumpT r1 a.login

/-- The result dict built by get_top_contributors (source lines 94 to
105), as an insertion-ordered association list from login to count. -/
def get_top_contributors_tally (commits : List Commit) : List (String × Nat) :=
  commits.foldl stepCommit []

/-! Specification-side counting functions, used to state what the tally
should contain.  These follow the words of the claims, not the code. -/

/-- Whether a commit has a present author with the given login. -/
def authorIs (c : Commit) (l : String) : Bool :=
  match c.author with
  | some a => a.login = l
  | none => false

/-- Number of commits by the given login whose message does not start
with "Merge". -/
def countNonMerge : List Commit → String → Nat
  | [], _ => 0
  | c :: cs, l =>
    (if authorIs c l && !(pyStartsWith c.message ("Merge")) then 1 else 0) + countNonMerge cs l

/-- Whether some commit in the list has a present author with the given
login. -/
def hasAuthorL (cs : List Commit) (l : String) : Bool :=
  cs.any (fun c => authorIs c l)

theorem hasAuthorL_cons (c : Commit) (cs : List Commit) (l : String) :
    hasAuthorL (c :: cs) l = (authorIs c l || hasAuthorL cs l) := by
  simp [hasAuthorL]

theorem lookupT_bumpT (r : List (String × Nat)) (l l' : String) :
    lookupT (bumpT r l) l' =
      if l = l' then (lookupT r l').map (· + 1) else lookupT r l' := by
  induction r with
  | nil => by_cases h : l = l' <;> simp [bumpT, lookupT, h]
  | cons kv rest ih =>
    obtain ⟨k, v⟩ := kv
    by_cases hkl : k = l
    · simp only [bumpT, if_pos hkl]
      by_cases hkl' : k = l'
      · have hll' : l = l' := hkl.symm.trans hkl'
        simp [lookupT, hkl', hll']
      · have hll' : ¬ l = l' := fun h => hkl' (hkl.trans h)
        simp [lookupT, hkl', hll']
    · simp only [bumpT, if_neg hkl]
      by_cases hkl' : k = l'
      · have hll' : ¬ l = l' := fun h => hkl (h ▸ hkl')
        simp [lookupT, hkl', hll']
      · simp [lookupT, hkl', ih]

theorem lookupT_append_zero_of_some (r : List (String × Nat)) (l l' : String) (v : Nat)
    (h : lookupT r l' = some v) : lookupT (r ++ [(l, 0)]) l' = some v := by
  induction r with
  | nil => simp [lookupT] at h
  | cons kv rest ih =>
    obtain ⟨k, w⟩ := kv
    by_cases hkl' : k = l'
    · simp [lookupT, hkl'] at h ⊢; exact h
    · simp [lookupT, hkl'] at h ⊢; exact ih h

theorem lookupT_append_zero_of_none (r : List (String × Nat)) (l l' : String)
    (h : lookupT r l' = none) :
    lookupT (r ++ [(l, 0)]) l' = if l = l' then some 0 else none := by
  induction r with
  | nil => simp [lookupT]
  | cons kv rest ih =>
    obtain ⟨k, w⟩ := kv
    by_cases hkl' : k = l'
    · simp [lookupT, hkl'] at h
    · simp [lookupT, hkl'] at h ⊢; exact ih h

theorem tally_foldl (cs : List Commit) (r : List (String × Nat)) (l : String) :
    lookupT (cs.foldl stepCommit r) l =
      if (lookupT r l).isSome || hasAuthorL cs l then
        some ((lookupT r l).getD 0 + countNonMerge cs l)
      else none := by
  induction cs generalizing r with
  | nil =>
    rcases h : lookupT r l with _ | n <;> simp [countNonMerge, hasAuthorL, h]
  | cons c cs ih =>
    rw [List.foldl_cons, ih]
    cases hauth : c.author with
    | none =>
      have hstep : stepCommit r c = r := by simp [stepCommit, hauth]
      have hAIc : authorIs c l = false := by simp [authorIs, hauth]
      rw [hstep]
      simp [countNonMerge, hasAuthorL_cons, hAIc]
    | some a =>
      have hAIc : authorIs c l = decide (a.login = l) := by simp [authorIs, hauth]
      by_cases hE : a.login = l
      · subst hE
        rcases hregn : lookupT r a.login with _ | n
        · by_cases hm : pyStartsWith c.message ("Merge") = true
          · have hstep : stepCommit r c = r ++ [(a.login, 0)] := by
              simp [stepCommit, hauth, hregn, hm]
            rw [hstep, lookupT_append_zero_of_none r _ _ hregn]
            simp [countNonMerge, hasAuthorL_cons, hAIc, hm, hregn]
          · have hstep : stepCommit r c = bumpT (r ++ [(a.login, 0)]) a.login := by
              simp [stepCommit, hauth, hregn, hm]
            rw [hstep, lookupT_bumpT, if_pos rfl,
              lookupT_append_zero_of_none r _ _ hregn]
            simp [countNonMerge, hasAuthorL_cons, hAIc, hm, hregn]
        · by_cases hm : pyStartsWith c.message ("Merge") = true
          · have hstep : stepCommit r c = r := by
              simp [stepCommit, hauth, hregn, hm]
            rw [hstep, hregn]
            simp [countNonMerge, hasAuthorL_cons, hAIc, hm, hregn]
          · have hstep : stepCommit r c = bumpT r a.login := by
              simp [stepCommit, hauth, hregn, hm]
            rw [hstep, lookupT_bumpT, if_pos rfl, hregn]
            simp [countNonMerge, hasAuthorL_cons, hAIc, hm, hregn]
            omega
      · have hlook : lookupT (stepCommit r c) l = lookupT r l := by
          rcases hregn : lookupT r a.login with _ | n
          · by_cases hm : pyStartsWith c.message ("Merge") = true
            · have hstep : stepCommit r c = r ++ [(a.login, 0)] := by
                simp [stepCommit, hauth, hregn, hm]
              rw [hstep]
              rcases hrl : lookupT r l with _ | v
              · rw [lookupT_append_zero_of_none r _ _ hrl, if_neg hE]
              · exact lookupT_append_zero_of_some r _ _ _ hrl
            · have hstep : stepCommit r c = bumpT (r ++ [(a.login, 0)]) a.login := by
                simp [stepCommit, hauth, hregn, hm]
              rw [hstep, lookupT_bumpT, if_neg hE]
              rcases hrl : lookupT r l with _ | v
              · rw [lookupT_append_zero_of_none r _ _ hrl, if_neg hE]
              · exact lookupT_append_zero_of_some r _ _ _ hrl
          · by_cases hm : pyStartsWith c.message ("Merge") = true
            · have hstep : stepCommit r c = r := by
                simp [stepCommit, hauth, hregn, hm]
              rw [hstep]
            · have hstep : stepCommit r c = bumpT r a.login := by
                simp [stepCommit, hauth, hregn, hm]
              rw [hstep, lookupT_bumpT, if_neg hE]
        rw [hlook]
        simp [countNonMerge, hasAuthorL_cons, hAIc, hE]

/-- Claim C3: for every list of commits, the tally maps each author login
to the number of that author's commits whose message does not start with
"Merge"; a commit with no author object registers no key, and a commit
whose message starts with "Merge" registers the login without
incrementing, so an author with only merge commits appears with count 0.
In particular, on the four-commit vector of the specification the tally
is exactly A maps to 1 and B maps to 1. -/
theorem gh_c3_tally_characterization :
    (∀ (cs : List Commit) (l : String),
      lookupT (get_top_contributors_tally cs) l =
        if hasAuthorL cs l then some (countNonMerge cs l) else none) ∧
    get_top_contributors_tally
      [⟨some ⟨"A"⟩, "Merge pull request", "2020-01-01T00:00:00Z"⟩,
       ⟨some ⟨"A"⟩, "fix bug", "2020-01-02T00:00:00Z"⟩,
       ⟨some ⟨"B"⟩, "feat", "2020-01-03T00:00:00Z"⟩,
       ⟨none, "no author", "2020-01-04T00:00:00Z"⟩] = [("A", 1), ("B", 1)] := by
  constructor
  · intro cs l
    have h := tally_foldl cs [] l
    simpa [get_top_contributors_tally, lookupT] using h
  · decide

/-- Claim C1 (failing input): the counting loop of get_top_contributors
never inspects created_at, so a non-merge commit created strictly before
the start of the analysis window still increments its author's tally.
The commit below is created at 1969-12-31T23:59:59Z, strictly before the
window start 1970-01-01T00:00:00Z, yet the tally for its author is 1;
moreover the tally of any commit list is invariant under arbitrary
rewriting of every created_at field.  The date window reaches the request
only through make_params as query parameters named start_date and
end_date, which the commits endpoint does not recognise, so no date
filtering happens anywhere. -/
theorem gh_c1_out_of_window_commit_counted :
    pyStrLt ("1969-12-31T23:59:59Z") ("1970-01-01T00:00:00Z") = true ∧
    get_top_contributors_tally
      [⟨some ⟨"A"⟩, "fix bug", "1969-12-31T23:59:59Z"⟩] = [("A", 1)] ∧
    ∀ (cs : List Commit) (g : String → String),
      get_top_contributors_tally
        (cs.map (fun c => { c with created_at := g c.created_at })) =
      get_top_contributors_tally cs := by
  refine ⟨by decide, by decide, ?_⟩
  intro cs g
  unfold get_top_contributors_tally
  rw [List.foldl_map]
  rfl

/-! ## URL validation

Source lines 28 to 32 and 163 to 164.  The pattern passed to re.match is
anchored at both ends and reads https://github.com/ followed by two
nonempty alphanumeric-or-hyphen segments.  Two quirks of the pattern are
modelled faithfully: the dot before com is an unescaped regex wildcard
matching any single character except a newline, and the final anchor also
matches just before one newline at the very end of the string.  Since the
character class contains no slash, the regex engine's greedy matching of
each class run is deterministic, so the matcher below, written as a chain
of stages over the remaining input, decides exactly the same language. -/

/-- Membership in the character class of the pattern. -/
def isSegChar (c : Char) : Bool := c.isAlpha || c.isDigit || c == '-'

/-- Consume an exact literal portion of the pattern, returning the
remainder of the input. -/
def dropLit : List Char → List Char → Option (List Char)
  | [], l => some l
  | _ :: _, [] => none
  | p :: ps, c :: cs => if c = p then dropLit ps cs else none

/-- Stage of check_url after the first class run: expects the separating
slash, the second class run, and the end of the string, where the end
anchor also accepts one final newline. -/
def checkTail3 (o rest4 : List Char) : Bool :=
  match rest4 with
  | c :: rest5 =>
    (c = '/' : Bool) && !o.isEmpty && !(rest5.takeWhile isSegChar).isEmpty &&
      ((rest5.dropWhile isSegChar).isEmpty || rest5.dropWhile isSegChar == ['\n'])
  | [] => false

/-- Stage of check_url after the literal com and slash: the first class
run. -/
def checkTail2 : Option (List Char) → Bool
  | none => false
  | some rest3 => checkTail3 (rest3.takeWhile isSegChar) (rest3.dropWhile isSegChar)

/-- Stage of check_url after the literal https://github: the wildcard of
the unescaped dot (any character except a newline), then the literal
com/. -/
def checkTail1 : Option (List Char) → Bool
  | none => false
  | some [] => false
  | some (dot :: rest2) =>
    if dot = '\n' then false else checkTail2 (dropLit (("com/").data) rest2)

/-- The truthiness of re.match with the pattern of check_url, source
line 29. -/
def check_url (url : String) : Bool :=
  checkTail1 (dropLit (("https://github").data) url.data)

/-- Python str.split("/"): cut the character list at every slash,
keeping empty pieces. -/
def splitSlash : List Char → List (List Char)
  | [] => [[]]
  | c :: rest =>
    if c = '/' then [] :: splitSlash rest
    else
      match splitSlash rest with
      | [] => [[c]]
      | s :: tl => (c :: s) :: tl

/-- The owner and repo extraction of main, source line 164: the slice
[3:5] of url.split("/") unpacked into a pair; none models the ValueError
raised when the slice does not hold exactly two elements. -/
def main_owner_repo (url : String) : Option (String × String) :=
  match (splitSlash url.data).drop 3 with
  | o :: r :: _ => some (⟨o⟩, ⟨r⟩)
  | _ => none

/-- A nonempty alphanumeric-or-hyphen segment. -/
def segOk (l : List Char) : Bool := !l.isEmpty && l.all isSegChar

/-- Modelled from the words of claim C2: a string of the shape https,
colon, two slashes, then any nonempty host segment, then owner and repo
segments that are nonempty alphanumeric-or-hyphen. -/
def claimUrlShape (s : String) : Bool :=
  match splitSlash s.data with
  | [h, e, host, o, r] =>
    h == ("https:").data && e.isEmpty && !host.isEmpty && segOk o && segOk r
  | _ => false

/-- The character list accepted by the pattern before the optional
trailing newline: a wildcard character sits where the pattern has the
unescaped dot. -/
def urlOf (dot : Char) (o r : List Char) : List Char :=
  ("https://github").data ++ (dot :: (("com/").data ++ (o ++ ('/' :: r))))

theorem dropLit_eq_some (pre : List Char) :
    ∀ (l rest : List Char), dropLit pre l = some rest ↔ l = pre ++ rest := by
  induction pre with
  | nil => intro l rest; simp [dropLit]
  | cons p ps ih =>
    intro l rest
    cases l with
    | nil => simp [dropLit]
    | cons c cs =>
      by_cases hc : c = p
      · subst hc; simp [dropLit, ih]
      · simp [dropLit, hc]

theorem dropLit_self (pre rest : List Char) : dropLit pre (pre ++ rest) = some rest :=
  (dropLit_eq_some pre (pre ++ rest) rest).mpr rfl

theorem spanP_append (p : Char → Bool) (a b : List Char) (ha : a.all p = true)
    (hb : ∀ x xs, b = x :: xs → p x = false) :
    (a ++ b).takeWhile p = a ∧ (a ++ b).dropWhile p = b := by
  induction a with
  | nil =>
    cases b with
    | nil => simp
    | cons x bs =>
      have hx := hb x bs rfl
      simp [List.takeWhile_cons, List.dropWhile_cons, hx]
  | cons c a' ih =>
    rw [List.all_cons, Bool.and_eq_true] at ha
    have h' := ih ha.2
    simp [List.takeWhile_cons, List.dropWhile_cons, ha.1, h'.1, h'.2]

theorem splitSlash_cons (c : Char) (rest : List Char) :
    splitSlash (c :: rest) =
      if c = '/' then [] :: splitSlash rest
      else
        match splitSlash rest with
        | [] => [[c]]
        | s :: tl => (c :: s) :: tl := rfl

theorem splitSlash_ne_nil (l : List Char) : splitSlash l ≠ [] := by
  cases l with
  | nil => simp [splitSlash]
  | cons c rest =>
    rw [splitSlash_cons]
    by_cases hc : c = '/'
    · simp [hc]
    · rw [if_neg hc]
      cases splitSlash rest <;> simp

theorem splitSlash_seg (a b : List Char) (ha : ∀ c ∈ a, ¬ c = '/') :
    splitSlash (a ++ '/' :: b) = a :: splitSlash b := by
  induction a with
  | nil => simp [splitSlash]
  | cons c a' ih =>
    have hc : ¬ c = '/' := ha c (List.mem_cons_self c a')
    have ih' := ih (fun x hx => ha x (List.mem_cons_of_mem c hx))
    rw [List.cons_append, splitSlash_cons, if_neg hc, ih']

theorem splitSlash_last (a : List Char) (ha : ∀ c ∈ a, ¬ c = '/') :
    splitSlash a = [a] := by
  induction a with
  | nil => simp [splitSlash]
  | cons c a' ih =>
    have hc : ¬ c = '/' := ha c (List.mem_cons_self c a')
    have ih' := ih (fun x hx => ha x (List.mem_cons_of_mem c hx))
    rw [splitSlash_cons, if_neg hc, ih']

theorem segOk_all (l : List Char) (h : segOk l = true) : l.all isSegChar = true := by
  rw [segOk, Bool.and_eq_true] at h; exact h.2

theorem segOk_ne_nil (l : List Char) (h : segOk l = true) : ¬ l = [] := by
  rw [segOk, Bool.and_eq_true, Bool.not_eq_true', List.isEmpty_eq_false] at h
  exact h.1

theorem segOk_no_slash (l : List Char) (h : segOk l = true) : ∀ c ∈ l, ¬ c = '/' := by
  intro c hc hcs
  have := List.all_eq_true.mp (segOk_all l h) c hc
  subst hcs
  simp [isSegChar] at this

/-- Claim C2 (counterexample): the first conjunct gives a string of the
claimed shape, with host gitlab.com, that check_url rejects; the second
gives a string not of that shape, namely https://github/com/a/b with
four path segments, that check_url accepts, because the dot in the
pattern is an unescaped wildcard that here matches a slash. -/
theorem gh_c2_counterexample :
    (claimUrlShape ("https://gitlab.com/abc/def") = true ∧
      check_url ("https://gitlab.com/abc/def") = false) ∧
    (claimUrlShape ("https://github/com/a/b") = false ∧
      check_url ("https://github/com/a/b") = true) := by
  decide

/-- Claim C2 (amended): validation succeeds exactly on strings reading
https://github then one arbitrary non-newline character then com/ then
two nonempty alphanumeric-or-hyphen segments separated by a slash,
optionally followed by one final newline; when the wildcard character is
not a slash the extraction in main returns exactly (owner, repo), and
when it is a slash the extraction shifts and returns the pair (com,
owner). -/
theorem gh_c2_amended :
    (∀ s : String, check_url s = true ↔
      ∃ (dot : Char) (o r : List Char), ¬ dot = '\n' ∧ segOk o = true ∧ segOk r = true ∧
        (s.data = urlOf dot o r ∨ s.data = urlOf dot o r ++ ['\n'])) ∧
    (∀ (dot : Char) (o r : List Char), ¬ dot = '/' → segOk o = true → segOk r = true →
      main_owner_repo ⟨urlOf dot o r⟩ = some (⟨o⟩, ⟨r⟩)) ∧
    (∀ (o r : List Char), segOk o = true → segOk r = true →
      main_owner_repo ⟨urlOf '/' o r⟩ = some (⟨("com").data⟩, ⟨o⟩)) := by
  refine ⟨?_, ?_, ?_⟩
  · intro s
    constructor
    · intro h
      unfold check_url at h
      cases hq1 : dropLit (("https://github").data) s.data with
      | none => rw [hq1] at h; simp [checkTail1] at h
      | some rest1 =>
        rw [hq1] at h
        cases rest1 with
        | nil => simp [checkTail1] at h
        | cons dot rest2 =>
          by_cases hdot : dot = '\n'
          · simp [checkTail1, hdot] at h
          · simp only [checkTail1, if_neg hdot] at h
            cases hq2 : dropLit (("com/").data) rest2 with
            | none => rw [hq2] at h; simp [checkTail2] at h
            | some rest3 =>
              rw [hq2] at h
              simp only [checkTail2] at h
              cases hq3 : rest3.dropWhile isSegChar with
              | nil => rw [hq3] at h; simp [checkTail3] at h
              | cons c5 rest5 =>
                rw [hq3] at h
                simp only [checkTail3, Bool.and_eq_true, decide_eq_true_eq,
                  Bool.or_eq_true, beq_iff_eq, Bool.not_eq_true',
                  List.isEmpty_eq_false, List.isEmpty_iff] at h
                obtain ⟨⟨⟨hc5, ho⟩, hr⟩, h6⟩ := h
                subst hc5
                have hs : s.data = ("https://github").data ++ (dot :: rest2) :=
                  (dropLit_eq_some _ _ _).mp hq1
                have h2 : rest2 = ("com/").data ++ rest3 :=
                  (dropLit_eq_some _ _ _).mp hq2
                have h3 : rest3 = rest3.takeWhile isSegChar ++ '/' :: rest5 := by
                  conv_lhs => rw [← List.takeWhile_append_dropWhile
                    (p := isSegChar) (l := rest3)]
                  rw [hq3]
                have h5 : rest5 = rest5.takeWhile isSegChar ++
                    rest5.dropWhile isSegChar :=
                  (List.takeWhile_append_dropWhile (p := isSegChar) (l := rest5)).symm
                refine ⟨dot, rest3.takeWhile isSegChar, rest5.takeWhile isSegChar,
                  hdot, ?_, ?_, ?_⟩
                · simp [segOk, List.isEmpty_eq_false, ho, List.all_takeWhile]
                · simp [segOk, List.isEmpty_eq_false, hr, List.all_takeWhile]
                · rw [h2] at hs
                  rw [h3] at hs
                  rw [h5] at hs
                  rcases h6 with h6 | h6
                  · left
                    rw [h6] at hs
                    rw [hs, urlOf]
                    simp
                  · right
                    rw [h6] at hs
                    rw [hs, urlOf]
                    simp
    · rintro ⟨dot, o, r, hdot, ho, hr, hs | hs⟩
      · have hspan1 := spanP_append isSegChar o ('/' :: r) (segOk_all o ho)
          (by intro x xs hx; cases hx; rfl)
        have hspan2 := spanP_append isSegChar r [] (segOk_all r hr)
          (by intro x xs hx; cases hx)
        rw [List.append_nil] at hspan2
        unfold check_url
        rw [hs, urlOf, dropLit_self]
        simp only [checkTail1, if_neg hdot]
        rw [dropLit_self]
        simp only [checkTail2, hspan1.1, hspan1.2]
        simp only [checkTail3, hspan2.1, hspan2.2]
        simp [segOk_ne_nil o ho, segOk_ne_nil r hr, List.isEmpty_eq_false]
      · have hspan1 := spanP_append isSegChar o ('/' :: (r ++ ['\n']))
          (segOk_all o ho) (by intro x xs hx; cases hx; rfl)
        have hspan2 := spanP_append isSegChar r ['\n'] (segOk_all r hr)
          (by intro x xs hx; cases hx; rfl)
        unfold check_url
        rw [hs]
        rw [show urlOf dot o r ++ ['\n'] =
          ("https://github").data ++ (dot :: (("com/").data ++
            (o ++ ('/' :: (r ++ ['\n']))))) from by simp [urlOf]]
        rw [dropLit_self]
        simp only [checkTail1, if_neg hdot]
        rw [dropLit_self]
        simp only [checkTail2, hspan1.1, hspan1.2]
        simp only [checkTail3, hspan2.1, hspan2.2]
        simp [segOk_ne_nil o ho, segOk_ne_nil r hr, List.isEmpty_eq_false]
  · intro dot o r hdot ho hr
    have hno : ∀ c ∈ ("github").data ++ (dot :: ("com").data), ¬ c = '/' := by
      intro c hc
      rcases List.mem_append.mp hc with h | h
      · exact (by decide : ∀ x ∈ ("github").data, ¬ x = '/') c h
      · rcases List.mem_cons.mp h with h | h
        · exact h ▸ hdot
        · exact (by decide : ∀ x ∈ ("com").data, ¬ x = '/') c h
    have hsplit : splitSlash (urlOf dot o r) =
        [("https:").data, [], ("github").data ++ (dot :: ("com").data), o, r] := by
      rw [show urlOf dot o r = ("https:").data ++ '/' :: (([] : List Char) ++ '/' ::
          ((("github").data ++ (dot :: ("com").data)) ++ '/' :: (o ++ '/' :: r)))
        from rfl]
      rw [splitSlash_seg _ _ (by decide)]
      rw [splitSlash_seg _ _ (by decide)]
      rw [splitSlash_seg _ _ hno]
      rw [splitSlash_seg _ _ (segOk_no_slash o ho)]
      rw [splitSlash_last _ (segOk_no_slash r hr)]
    unfold main_owner_repo
    rw [show (String.mk (urlOf dot o r)).data = urlOf dot o r from rfl, hsplit]
    rfl
  · intro o r ho hr
    have hsplit : splitSlash (urlOf '/' o r) =
        [("https:").data, [], ("github").data, ("com").data, o, r] := by
      rw [show urlOf '/' o r = ("https:").data ++ '/' :: (([] : List Char) ++ '/' ::
          (("github").data ++ '/' :: (("com").data ++ '/' :: (o ++ '/' :: r))))
        from rfl]
      rw [splitSlash_seg _ _ (by decide)]
      rw [splitSlash_seg _ _ (by decide)]
      rw [splitSlash_seg _ _ (by decide)]
      rw [splitSlash_seg _ _ (by decide)]
      rw [splitSlash_seg _ _ (segOk_no_slash o ho)]
      rw [splitSlash_last _ (segOk_no_slash r hr)]
    unfold main_owner_repo
    rw [show (String.mk (urlOf '/' o r)).data = urlOf '/' o r from rfl, hsplit]
    rfl

/-- Witness for the amended claim C2 at concrete inputs. -/
theorem gh_c2_witness :
    check_url ("https://github.com/my-owner/my-repo") = true ∧
    main_owner_repo ⟨urlOf '.' (("a").data) (("b").data)⟩ = some ("a", "b") ∧
    main_owner_repo ⟨urlOf '/' (("a").data) (("b").data)⟩ = some ("com", "a") := by
  refine ⟨?_, ?_, ?_⟩
  · exact (gh_c2_amended.1 ("https://github.com/my-owner/my-repo")).mpr
      ⟨'.', ("my-owner").data, ("my-repo").data, by decide, by decide, by decide,
        Or.inl (by decide)⟩
  · exact gh_c2_amended.2.1 '.' (("a").data) (("b").data) (by decide) (by decide)
      (by decide)
  · exact gh_c2_amended.2.2 (("a").data) (("b").data) (by decide) (by decide)

/-! ## Date validation

Source lines 8 and 20 to 25, and the strptime calls on lines 130 to 131.
datetime.strptime with the mask is modelled after the regular expressions
CPython builds for the directives: the year is exactly four digits; month
reads 1[0-2] or 0[1-9] or [1-9]; day reads 3[01] or [12] digit or 0[1-9]
or [1-9]; hour reads 2[0-3] or [0-1] digit or digit; minute and second
read [0-5] digit or digit, with second also accepting 60 and 61; every
separator is literal and no input may remain after the trailing Z.  Since
a digit can never match a literal separator, backtracking never changes
the outcome and each numeric field consumes exactly the maximal digit run
in front of it, so the recognizer below over digit runs decides the same
language.  The datetime constructor then rejects year 0, a day beyond the
length of the month, and seconds above 59. -/

/-- Numeric value of a digit run, most significant first. -/
def digitsVal (l : List Char) : Nat := l.foldl (fun a c => 10 * a + (c.toNat - 48)) 0

/-- The maximal digit run in front of the input. -/
def fieldRun (l : List Char) : List Char := l.takeWhile Char.isDigit

/-- The input after its leading digit run. -/
def fieldRest (l : List Char) : List Char := l.dropWhile Char.isDigit

/-- Consume one expected literal character. -/
def expectChar (c : Char) : List Char → Option (List Char)
  | x :: xs => if x = c then some xs else none
  | [] => none

/-- The month digit run accepted by strptime: one digit 1 to 9, or two
digits 01 to 12. -/
def monthTokOk (run : List Char) : Prop :=
  (run.length = 1 ∧ 1 ≤ digitsVal run) ∨
    (run.length = 2 ∧ 1 ≤ digitsVal run ∧ digitsVal run ≤ 12)

instance (run : List Char) : Decidable (monthTokOk run) := by
  unfold monthTokOk; infer_instance

/-- The day digit run accepted by strptime: one digit 1 to 9, or two
digits 01 to 31. -/
def dayTokOk (run : List Char) : Prop :=
  (run.length = 1 ∧ 1 ≤ digitsVal run) ∨
    (run.length = 2 ∧ 1 ≤ digitsVal run ∧ digitsVal run ≤ 31)

instance (run : List Char) : Decidable (dayTokOk run) := by
  unfold dayTokOk; infer_instance

/-- The hour digit run accepted by strptime: one digit, or two digits 00
to 23. -/
def hourTokOk (run : List Char) : Prop :=
  run.length = 1 ∨ (run.length = 2 ∧ digitsVal run ≤ 23)

instance (run : List Char) : Decidable (hourTokOk run) := by
  unfold hourTokOk; infer_instance

/-- The minute digit run accepted by strptime: one digit, or two digits
00 to 59. -/
def minuteTokOk (run : List Char) : Prop :=
  run.length = 1 ∨ (run.length = 2 ∧ digitsVal run ≤ 59)

instance (run : List Char) : Decidable (minuteTokOk run) := by
  unfold minuteTokOk; infer_instance

/-- The second digit run accepted by strptime: one digit, or two digits
00 to 61 (the directive admits leap seconds; the datetime constructor
later rejects 60 and 61). -/
def secondTokOk (run : List Char) : Prop :=
  run.length = 1 ∨ (run.length = 2 ∧ digitsVal run ≤ 61)

instance (run : List Char) : Decidable (secondTokOk run) := by
  unfold secondTokOk; infer_instance

/-- Gregorian leap year, as the datetime module defines it. -/
def isLeapYear (y : Nat) : Bool := y % 4 = 0 && (!(y % 100 = 0) || y % 400 = 0)

/-- Length of a month, as the datetime constructor validates the day. -/
def daysInMonth (y m : Nat) : Nat :=
  if m = 2 then (if isLeapYear y then 29 else 28)
  else if m = 4 ∨ m = 6 ∨ m = 9 ∨ m = 11 then 30 else 31

/-- A parsed datetime value. -/
structure Datetime where
  y : Nat
  m : Nat
  d : Nat
  h : Nat
  mi : Nat
  s : Nat
  deriving DecidableEq, Repr

/-- datetime.strptime with the mask of line 8: none models the
ValueError raised either by a failed pattern match or by the datetime
constructor (year 0, day beyond the month, seconds above 59). -/
def parseDateChars (l : List Char) : Option Datetime :=
  (expectChar '-' (fieldRest l)).bind (fun r2 =>
  (expectChar '-' (fieldRest r2)).bind (fun r4 =>
  (expectChar 'T' (fieldRest r4)).bind (fun r6 =>
  (expectChar ':' (fieldRest r6)).bind (fun r8 =>
  (expectChar ':' (fieldRest r8)).bind (fun r10 =>
  (expectChar 'Z' (fieldRest r10)).bind (fun r12 =>
    if (fieldRun l).length = 4 ∧ monthTokOk (fieldRun r2) ∧ dayTokOk (fieldRun r4) ∧
        hourTokOk (fieldRun r6) ∧ minuteTokOk (fieldRun r8) ∧
        secondTokOk (fieldRun r10) ∧ r12 = [] ∧
        1 ≤ digitsVal (fieldRun l) ∧
        digitsVal (fieldRun r4) ≤
          daysInMonth (digitsVal (fieldRun l)) (digitsVal (fieldRun r2)) ∧
        digitsVal (fieldRun r10) ≤ 59 then
      some ⟨digitsVal (fieldRun l), digitsVal (fieldRun r2), digitsVal (fieldRun r4),
        digitsVal (fieldRun r6), digitsVal (fieldRun r8), digitsVal (fieldRun r10)⟩
    else none))))))

/-- datetime.strptime on a string. -/
def parseDate (s : String) : Option Datetime := parseDateChars s.data

/-- check_date, source lines 20 to 25: returns the input string
unchanged when strptime succeeds; none models the raised
ArgumentTypeError. -/
def check_date (date : String) : Option String :=
  match parseDate date with
  | some _ => some date
  | none => none

/-! Specification-side date material, following the words of claim C9. -/

/-- Modelled from the words of claim C9: a string textually matching
YYYY-MM-DDTHH:MM:SSZ, with every field zero-padded to fixed width. -/
def strictMask (s : String) : Bool :=
  match s.data with
  | [y1, y2, y3, y4, s1, m1, m2, s2, d1, d2, t1, h1, h2, c1, i1, i2, c2, e1, e2, z1] =>
    y1.isDigit && y2.isDigit && y3.isDigit && y4.isDigit && s1 == '-' &&
    m1.isDigit && m2.isDigit && s2 == '-' && d1.isDigit && d2.isDigit &&
    t1 == 'T' && h1.isDigit && h2.isDigit && c1 == ':' && i1.isDigit &&
    i2.isDigit && c2 == ':' && e1.isDigit && e2.isDigit && z1 == 'Z'
  | _ => false

/-- The character for a single decimal digit. -/
def toDigit (n : Nat) : Char := Char.ofNat (48 + n)

/-- A number rendered on exactly two digits. -/
def pad2 (n : Nat) : List Char :=
  if n < 10 then ['0', toDigit n] else [toDigit (n / 10), toDigit (n % 10)]

/-- A number rendered on exactly four digits. -/
def pad4 (n : Nat) : List Char :=
  [toDigit (n / 1000), toDigit (n / 100 % 10), toDigit (n / 10 % 10), toDigit (n % 10)]

/-- The zero-padded rendering of a datetime in the mask format. -/
def renderDate (y m d h mi sec : Nat) : String :=
  ⟨pad4 y ++ '-' :: (pad2 m ++ '-' :: (pad2 d ++ 'T' :: (pad2 h ++ ':' ::
    (pad2 mi ++ ':' :: (pad2 sec ++ ['Z'])))))⟩

theorem data_mk (l : List Char) : (String.mk l).data = l := rfl

theorem toDigit_toNat (n : Nat) (h : n < 10) : (toDigit n).toNat = 48 + n := by
  interval_cases n <;> decide

theorem toDigit_isDigit (n : Nat) (h : n < 10) : (toDigit n).isDigit = true := by
  interval_cases n <;> decide

theorem pad2_length (n : Nat) : (pad2 n).length = 2 := by
  unfold pad2; split <;> rfl

theorem pad4_length (n : Nat) : (pad4 n).length = 4 := rfl

theorem pad2_all_digit (n : Nat) (h : n ≤ 99) : (pad2 n).all Char.isDigit = true := by
  by_cases hlt : n < 10
  · simp [pad2, hlt, toDigit_isDigit n hlt]
  · have h1 : n / 10 < 10 := by omega
    have h2 : n % 10 < 10 := Nat.mod_lt _ (by omega)
    simp [pad2, hlt, toDigit_isDigit _ h1, toDigit_isDigit _ h2]

theorem pad4_all_digit (n : Nat) (h : n ≤ 9999) : (pad4 n).all Char.isDigit = true := by
  have h1 : n / 1000 < 10 := by omega
  have h2 : n / 100 % 10 < 10 := Nat.mod_lt _ (by omega)
  have h3 : n / 10 % 10 < 10 := Nat.mod_lt _ (by omega)
  have h4 : n % 10 < 10 := Nat.mod_lt _ (by omega)
  simp [pad4, toDigit_isDigit _ h1, toDigit_isDigit _ h2, toDigit_isDigit _ h3,
    toDigit_isDigit _ h4]

theorem digitsVal_pad2 (n : Nat) (h : n ≤ 99) : digitsVal (pad2 n) = n := by
  by_cases hlt : n < 10
  · have ht := toDigit_toNat n hlt
    simp [pad2, hlt, digitsVal, ht]
  · have h1 : n / 10 < 10 := by omega
    have h2 : n % 10 < 10 := Nat.mod_lt _ (by omega)
    have ht1 := toDigit_toNat _ h1
    have ht2 := toDigit_toNat _ h2
    simp [pad2, hlt, digitsVal, ht1, ht2]
    omega

theorem digitsVal_pad4 (n : Nat) (h : n ≤ 9999) : digitsVal (pad4 n) = n := by
  have h1 : n / 1000 < 10 := by omega
  have h2 : n / 100 % 10 < 10 := Nat.mod_lt _ (by omega)
  have h3 : n / 10 % 10 < 10 := Nat.mod_lt _ (by omega)
  have h4 : n % 10 < 10 := Nat.mod_lt _ (by omega)
  simp [pad4, digitsVal, toDigit_toNat _ h1, toDigit_toNat _ h2, toDigit_toNat _ h3,
    toDigit_toNat _ h4]
  omega

theorem field_split (a : List Char) (sep : Char) (rest : List Char)
    (ha : a.all Char.isDigit = true) (hsep : sep.isDigit = false) :
    fieldRun (a ++ sep :: rest) = a ∧ fieldRest (a ++ sep :: rest) = sep :: rest := by
  have h := spanP_append Char.isDigit a (sep :: rest) ha
    (by intro x xs hx; cases hx; exact hsep)
  exact ⟨h.1, h.2⟩

theorem expectChar_cons_self (c : Char) (r : List Char) :
    expectChar c (c :: r) = some r := by
  simp [expectChar]

/-- Claim C9 (counterexample): the string 2021-02-30T00:00:00Z matches
the textual format YYYY-MM-DDTHH:MM:SSZ yet check_date raises, because
the datetime constructor rejects February 30; and the string
2020-1-02T03:04:05Z does not match the textual format yet check_date
accepts it, because strptime tolerates an unpadded month. -/
theorem gh_c9_counterexample :
    (strictMask ("2021-02-30T00:00:00Z") = true ∧
      check_date ("2021-02-30T00:00:00Z") = none) ∧
    (strictMask ("2020-1-02T03:04:05Z") = false ∧
      check_date ("2020-1-02T03:04:05Z") = some ("2020-1-02T03:04:05Z")) := by
  decide

/-- Claim C9 (amended): date validation accepts every zero-padded
rendering of a valid calendar datetime with year between 1 and 9999 and
seconds at most 59, and returns the input string unchanged; it also
accepts some strings outside the textual format (unpadded fields) and
rejects some strings inside it (calendar-invalid dates), as the
counterexample shows. -/
theorem gh_c9_amended (y m d h mi sec : Nat)
    (hy1 : 1 ≤ y) (hy2 : y ≤ 9999) (hm1 : 1 ≤ m) (hm2 : m ≤ 12)
    (hd1 : 1 ≤ d) (hd2 : d ≤ daysInMonth y m) (hh : h ≤ 23) (hmi : mi ≤ 59)
    (hs : sec ≤ 59) :
    check_date (renderDate y m d h mi sec) = some (renderDate y m d h mi sec) := by
  have hd31 : d ≤ 31 := by
    have hdm : daysInMonth y m ≤ 31 := by
      unfold daysInMonth
      split
      · split <;> omega
      · split <;> omega
    omega
  have hdash : ('-' : Char).isDigit = false := by decide
  have hTd : ('T' : Char).isDigit = false := by decide
  have hcolon : (':' : Char).isDigit = false := by decide
  have hZd : ('Z' : Char).isDigit = false := by decide
  have hp : parseDate (renderDate y m d h mi sec) = some ⟨y, m, d, h, mi, sec⟩ := by
    unfold parseDate renderDate parseDateChars
    rw [data_mk]
    rw [(field_split _ _ _ (pad4_all_digit y hy2) hdash).1,
      (field_split _ _ _ (pad4_all_digit y hy2) hdash).2, expectChar_cons_self]
    simp only [Option.some_bind]
    rw [(field_split _ _ _ (pad2_all_digit m (by omega)) hdash).1,
      (field_split _ _ _ (pad2_all_digit m (by omega)) hdash).2, expectChar_cons_self]
    simp only [Option.some_bind]
    rw [(field_split _ _ _ (pad2_all_digit d (by omega)) hTd).1,
      (field_split _ _ _ (pad2_all_digit d (by omega)) hTd).2, expectChar_cons_self]
    simp only [Option.some_bind]
    rw [(field_split _ _ _ (pad2_all_digit h (by omega)) hcolon).1,
      (field_split _ _ _ (pad2_all_digit h (by omega)) hcolon).2, expectChar_cons_self]
    simp only [Option.some_bind]
    rw [(field_split _ _ _ (pad2_all_digit mi (by omega)) hcolon).1,
      (field_split _ _ _ (pad2_all_digit mi (by omega)) hcolon).2, expectChar_cons_self]
    simp only [Option.some_bind]
    rw [(field_split _ _ ([] : List Char) (pad2_all_digit sec (by omega)) hZd).1,
      (field_split _ _ ([] : List Char) (pad2_all_digit sec (by omega)) hZd).2,
      expectChar_cons_self]
    simp only [Option.some_bind]
    have hcond : (pad4 y).length = 4 ∧ monthTokOk (pad2 m) ∧ dayTokOk (pad2 d) ∧
        hourTokOk (pad2 h) ∧ minuteTokOk (pad2 mi) ∧ secondTokOk (pad2 sec) ∧
        True ∧ 1 ≤ digitsVal (pad4 y) ∧
        digitsVal (pad2 d) ≤ daysInMonth (digitsVal (pad4 y)) (digitsVal (pad2 m)) ∧
        digitsVal (pad2 sec) ≤ 59 := by
      rw [digitsVal_pad4 y hy2, digitsVal_pad2 m (by omega),
        digitsVal_pad2 d (by omega), digitsVal_pad2 sec (by omega)]
      exact ⟨pad4_length y,
        Or.inr ⟨pad2_length m, by rw [digitsVal_pad2 m (by omega)]; omega,
          by rw [digitsVal_pad2 m (by omega)]; omega⟩,
        Or.inr ⟨pad2_length d, by rw [digitsVal_pad2 d (by omega)]; omega,
          by rw [digitsVal_pad2 d (by omega)]; omega⟩,
        Or.inr ⟨pad2_length h, by
          rw [digitsVal_pad2 h (by omega)]; omega⟩,
        Or.inr ⟨pad2_length mi, by rw [digitsVal_pad2 mi (by omega)]; omega⟩,
        Or.inr ⟨pad2_length sec, by rw [digitsVal_pad2 sec (by omega)]; omega⟩,
        trivial, by omega, hd2, by omega⟩
    rw [if_pos hcond]
    rw [digitsVal_pad4 y hy2, digitsVal_pad2 m (by omega), digitsVal_pad2 d (by omega),
      digitsVal_pad2 h (by omega), digitsVal_pad2 mi (by omega),
      digitsVal_pad2 sec (by omega)]
  unfold check_date
  rw [hp]

/-- Witness for the amended claim C9 at a concrete input. -/
theorem gh_c9_witness :
    check_date (renderDate 2021 2 28 23 59 59) = some ("2021-02-28T23:59:59Z") := by
  have h := gh_c9_amended 2021 2 28 23 59 59 (by omega) (by omega) (by omega)
    (by omega) (by omega) (by decide) (by omega) (by omega) (by omega)
  rw [h]
  rfl

/-! ## Issue and pull request statistics

Source lines 17 and 117 to 150.  An item decoded from JSON is modelled by
the three fields the loop reads: created_at and state model
item.get("created_at") and item.get("state") (none for an absent key),
and pull_request models the truthiness of item.get("pull_request", "").
The window filter on line 142 is a chained Python string comparison; a
none created_at makes it raise TypeError, which the model surfaces as an
overall none.  The loop body has two separate if statements on the state;
as a string never equals both "open" and "closed", they are rendered as
an if-else chain with identical behaviour. -/

/-- Days since 1970-01-01 of a Gregorian date, by the days-from-civil
algorithm; agrees with the toordinal arithmetic that the datetime
subtraction performs, for years 1 to 9999 and valid months and days. -/
def daysFromCivil (y m d : Nat) : Int :=
  let yAdj : Nat := if m ≤ 2 then y - 1 else y
  let era : Nat := yAdj / 400
  let yoe : Nat := yAdj % 400
  let mShift : Nat := if m > 2 then m - 3 else m + 9
  let doy : Nat := (153 * mShift + 2) / 5 + d - 1
  let doe : Nat := yoe * 365 + yoe / 4 - yoe / 100 + doy
  (era * 146097 + doe : Int) - 719468

/-- Seconds since the epoch of a datetime value. -/
def toSeconds (t : Datetime) : Int :=
  daysFromCivil t.y t.m t.d * 86400 + t.h * 3600 + t.mi * 60 + t.s

/-- The days attribute of the timedelta b - a: the floor of the second
difference over 86400, as timedelta normalization computes it. -/
def diffDays (b a : Datetime) : Int := (toSeconds b - toSeconds a).fdiv 86400

inductive ItemType where
  | pull_request : ItemType
  | issue : ItemType
  deriving DecidableEq, Repr

/-- Source line 17. -/
def OLD_DAYS_NUM : ItemType → Nat
  | .pull_request => 30
  | .issue => 14

/-- is_old_pr, source lines 129 to 133: none models the ValueError
raised by strptime on either date string. -/
def is_old_pr (pr_create_date period_end_date : String) (item_type : ItemType) :
    Option Bool :=
  match parseDate pr_create_date, parseDate period_end_date with
  | some pc, some pe =>
    some (decide (diffDays pe pc > (OLD_DAYS_NUM item_type : Int)))
  | _, _ => none

structure Item where
  created_at : Option String
  state : Option String
  pull_request : Bool
  deriving DecidableEq, Repr

structure Counters where
  openN : Nat
  closedN : Nat
  oldN : Nat
  deriving DecidableEq, Repr

def zeroCounters : Counters := ⟨0, 0, 0⟩

/-- Line 143 to 144: select pull_requests when the pull_request marker is
truthy, else issues. -/
def itemTypeOf (item : Item) : ItemType :=
  if item.pull_request then .pull_request else .issue

/-- Apply an update to the record selected by the item type, in the pair
(pull_requests, issues). -/
def updateByType (t : ItemType) (f : Counters → Counters)
    (acc : Counters × Counters) : Counters × Counters :=
  match t with
  | .pull_request => (f acc.1, acc.2)
  | .issue => (acc.1, f acc.2)

/-- Lines 145 to 148: increment open, and old when the age check holds. -/
def recordOpen (r : Counters) (old : Bool) : Counters :=
  { r with openN := r.openN + 1, oldN := r.oldN + (if old then 1 else 0) }

/-- Lines 149 to 150: increment closed. -/
def recordClosed (r : Counters) : Counters :=
  { r with closedN := r.closedN + 1 }

/-- One iteration of the loop at lines 141 to 150 on the accumulated pair
(pull_requests, issues): none models an uncaught TypeError (created_at
absent in the chained comparison) or ValueError (strptime inside
is_old_pr). -/
def stepItem (start_date end_date : String) (acc : Counters × Counters)
    (item : Item) : Option (Counters × Counters) :=
  match item.created_at with
  | none => none
  | some c =>
    if pyStrLt start_date c && pyStrLt c end_date then
      if item.state == some ("open") then
        match is_old_pr c end_date (itemTypeOf item) with
        | none => none
        | some old =>
          some (updateByType (itemTypeOf item) (fun r => recordOpen r old) acc)
      else if item.state == some ("closed") then
        some (updateByType (itemTypeOf item) recordClosed acc)
      else some acc
    else some acc

def get_stats_aux (start_date end_date : String) :
    List Item → Counters × Counters → Option (Counters × Counters)
  | [], acc => some acc
  | item :: rest, acc =>
    match stepItem start_date end_date acc item with
    | none => none
    | some acc2 => get_stats_aux start_date end_date rest acc2

/-- The counting loop of get_stats, source lines 139 to 150, producing
the pair (pull_requests, issues); none models an uncaught exception
aborting the run. -/
def get_stats (items : List Item) (start_date end_date : String) :
    Option (Counters × Counters) :=
  get_stats_aux start_date end_date items (zeroCounters, zeroCounters)

/-- Claim C6: an item whose created_at equals start_date or end_date
exactly is excluded by the strict window filter and contributes to no
counter. -/
theorem gh_c6_boundary_excluded (item : Item) (rest : List Item) (s e c : String)
    (hc : item.created_at = some c) (hb : c = s ∨ c = e) :
    get_stats (item :: rest) s e = get_stats rest s e := by
  have hstep : ∀ acc, stepItem s e acc item = some acc := by
    intro acc
    rcases hb with hb | hb <;> subst hb
    · simp [stepItem, hc, pyStrLt_irrefl]
    · simp [stepItem, hc, pyStrLt_irrefl]
  simp [get_stats, get_stats_aux, hstep]

/-- Witness for claim C6 at a concrete input. -/
theorem gh_c6_witness :
    get_stats [⟨some ("2020-01-01T00:00:00Z"), some ("open"), true⟩]
      ("2020-01-01T00:00:00Z") ("2021-01-01T00:00:00Z") =
    some (zeroCounters, zeroCounters) := by
  rw [gh_c6_boundary_excluded _ [] _ _ _ rfl (Or.inl rfl)]
  rfl

theorem get_stats_aux_none (s e : String) (items : List Item)
    (hex : ∃ it ∈ items, it.created_at = none) :
    ∀ acc, get_stats_aux s e items acc = none := by
  induction items with
  | nil => obtain ⟨it, hmem, _⟩ := hex; cases hmem
  | cons item rest ih =>
    intro acc
    obtain ⟨it, hmem, hnone⟩ := hex
    rcases List.mem_cons.mp hmem with h | h
    · subst h
      have hs : stepItem s e acc it = none := by simp [stepItem, hnone]
      simp [get_stats_aux, hs]
    · cases hstep : stepItem s e acc item with
      | none => simp [get_stats_aux, hstep]
      | some acc2 =>
        simp [get_stats_aux, hstep]
        exact ih ⟨it, h, hnone⟩ acc2

/-- Claim C10: the statistics are only defined when every item carries a
created_at: one item with created_at absent aborts the whole computation
(the chained window comparison raises), whereas an item with an absent or
unrecognized state but a present created_at is silently skipped. -/
theorem gh_c10_missing_created_at :
    (∀ (items : List Item) (s e : String),
      (∃ it ∈ items, it.created_at = none) → get_stats items s e = none) ∧
    (∀ (item : Item) (rest : List Item) (s e c : String),
      item.created_at = some c → ¬ item.state = some ("open") →
      ¬ item.state = some ("closed") →
      get_stats (item :: rest) s e = get_stats rest s e) := by
  constructor
  · intro items s e hex
    exact get_stats_aux_none s e items hex _
  · intro item rest s e c hc hso hsc
    have hstep : ∀ acc, stepItem s e acc item = some acc := by
      intro acc
      simp [stepItem, hc, hso, hsc]
    simp [get_stats, get_stats_aux, hstep]

/-- Witness for claim C10 at concrete inputs. -/
theorem gh_c10_witness :
    get_stats [⟨none, some ("open"), true⟩] ("a") ("b") = none ∧
    get_stats [⟨some ("2020-06-01T00:00:00Z"), none, false⟩]
        ("2020-01-01T00:00:00Z") ("2021-01-01T00:00:00Z") =
      get_stats [] ("2020-01-01T00:00:00Z") ("2021-01-01T00:00:00Z") := by
  constructor
  · exact gh_c10_missing_created_at.1 _ ("a") ("b")
      ⟨⟨none, some ("open"), true⟩, by simp, rfl⟩
  · exact gh_c10_missing_created_at.2 _ [] _ _ ("2020-06-01T00:00:00Z") rfl
      (by simp) (by simp)

/-- Claim C4: an in-window item with state open is counted as old exactly
when its age in whole days, the end date minus the creation date, is
strictly greater than 30 for pull requests and 14 for issues; an item
with any other state, closed included, is never evaluated for old.  The
second conjunct checks the four-item vector of the specification: issue
counters open 1, closed 1, old 1 and pull request counters open 2,
closed 0, old 1. -/
theorem gh_c4_old_threshold :
    (∀ (c st : String) (p : Bool) (s e : String) (pc pe : Datetime),
      parseDate c = some pc → parseDate e = some pe →
      pyStrLt s c = true → pyStrLt c e = true →
      get_stats [⟨some c, some st, p⟩] s e =
        some (if p then
          (⟨(if st = "open" then 1 else 0), (if st = "closed" then 1 else 0),
            (if st = "open" ∧ diffDays pe pc > 30 then 1 else 0)⟩, zeroCounters)
        else
          (zeroCounters,
            ⟨(if st = "open" then 1 else 0), (if st = "closed" then 1 else 0),
              (if st = "open" ∧ diffDays pe pc > 14 then 1 else 0)⟩))) ∧
    get_stats
      [⟨some ("2021-02-09T00:00:00Z"), some ("open"), false⟩,
       ⟨some ("2020-06-15T00:00:00Z"), some ("closed"), false⟩,
       ⟨some ("2021-01-20T00:00:00Z"), some ("open"), true⟩,
       ⟨some ("2021-02-24T00:00:00Z"), some ("open"), true⟩]
      ("2020-01-01T00:00:00Z") ("2021-03-01T00:00:00Z") =
      some (⟨2, 0, 1⟩, ⟨1, 1, 1⟩) := by
  constructor
  · intro c st p s e pc pe hpc hpe hw1 hw2
    have hold : ∀ t, is_old_pr c e t =
        some (decide (diffDays pe pc > (OLD_DAYS_NUM t : Int))) := by
      intro t
      simp [is_old_pr, hpc, hpe]
    by_cases hso : st = "open"
    · subst hso
      cases p <;>
        simp [get_stats, get_stats_aux, stepItem, hw1, hw2, hold, itemTypeOf,
          updateByType, recordOpen, zeroCounters, OLD_DAYS_NUM]
    · by_cases hsc : st = "closed"
      · subst hsc
        cases p <;>
          simp [get_stats, get_stats_aux, stepItem, hw1, hw2, hold, itemTypeOf,
            updateByType, recordClosed, zeroCounters, hso]
      · cases p <;>
          simp [get_stats, get_stats_aux, stepItem, hw1, hw2, itemTypeOf,
            zeroCounters, hso, hsc]
  · decide

/-- Witness for the general part of claim C4 at a concrete input. -/
theorem gh_c4_witness :
    get_stats [⟨some ("2021-02-09T00:00:00Z"), some ("open"), false⟩]
      ("2020-01-01T00:00:00Z") ("2021-03-01T00:00:00Z") =
    some (zeroCounters, ⟨1, 0, 1⟩) := by
  have h := gh_c4_old_threshold.1 ("2021-02-09T00:00:00Z") ("open") false
    ("2020-01-01T00:00:00Z") ("2021-03-01T00:00:00Z")
    ⟨2021, 2, 9, 0, 0, 0⟩ ⟨2021, 3, 1, 0, 0, 0⟩
    (by decide) (by decide) (by decide) (by decide)
  rw [h]
  decide

theorem stepItem_old_le_open (s e : String) (acc : Counters × Counters)
    (item : Item) (acc2 : Counters × Counters)
    (h : stepItem s e acc item = some acc2)
    (hinv : acc.1.oldN ≤ acc.1.openN ∧ acc.2.oldN ≤ acc.2.openN) :
    acc2.1.oldN ≤ acc2.1.openN ∧ acc2.2.oldN ≤ acc2.2.openN := by
  cases hca : item.created_at with
  | none => simp [stepItem, hca] at h
  | some c =>
    simp only [stepItem, hca] at h
    by_cases hw : (pyStrLt s c && pyStrLt c e) = true
    · rw [if_pos hw] at h
      by_cases hso : (item.state == some ("open")) = true
      · rw [if_pos hso] at h
        cases hold : is_old_pr c e (itemTypeOf item) with
        | none => rw [hold] at h; simp at h
        | some old =>
          rw [hold] at h
          simp only [Option.some.injEq] at h
          subst h
          cases t : itemTypeOf item <;>
            cases old <;>
              simp [updateByType, recordOpen] <;> omega
      · rw [if_neg hso] at h
        by_cases hsc : (item.state == some ("closed")) = true
        · rw [if_pos hsc] at h
          simp only [Option.some.injEq] at h
          subst h
          cases t : itemTypeOf item <;> simp [updateByType, recordClosed] <;> omega
        · rw [if_neg hsc] at h
          simp only [Option.some.injEq] at h
          subst h
          exact hinv
    · rw [if_neg hw] at h
      simp only [Option.some.injEq] at h
      subst h
      exact hinv

theorem get_stats_aux_old_le_open (s e : String) (items : List Item) :
    ∀ (acc res : Counters × Counters),
      get_stats_aux s e items acc = some res →
      acc.1.oldN ≤ acc.1.openN ∧ acc.2.oldN ≤ acc.2.openN →
      res.1.oldN ≤ res.1.openN ∧ res.2.oldN ≤ res.2.openN := by
  induction items with
  | nil =>
    intro acc res h hinv
    simp only [get_stats_aux, Option.some.injEq] at h
    subst h
    exact hinv
  | cons item rest ih =>
    intro acc res h hinv
    cases hstep : stepItem s e acc item with
    | none => simp [get_stats_aux, hstep] at h
    | some acc2 =>
      simp only [get_stats_aux, hstep] at h
      exact ih acc2 res h (stepItem_old_le_open s e acc item acc2 hstep hinv)

/-- Claim C7: after processing any item list, the old count never exceeds
the open count in either record; and one in-window item with state open
or closed that is processed successfully touches exactly one of the two
records (the other is unchanged) and increments the sum of that record's
open and closed counters by exactly one. -/
theorem gh_c7_old_subset_invariants :
    (∀ (items : List Item) (s e : String) (prs iss : Counters),
      get_stats items s e = some (prs, iss) →
      prs.oldN ≤ prs.openN ∧ iss.oldN ≤ iss.openN) ∧
    (∀ (s e : String) (acc : Counters × Counters) (item : Item) (c : String)
        (acc2 : Counters × Counters),
      item.created_at = some c → pyStrLt s c = true → pyStrLt c e = true →
      (item.state = some ("open") ∨ item.state = some ("closed")) →
      stepItem s e acc item = some acc2 →
      ((item.pull_request = true → acc2.2 = acc.2 ∧
          acc2.1.openN + acc2.1.closedN = acc.1.openN + acc.1.closedN + 1) ∧
       (item.pull_request = false → acc2.1 = acc.1 ∧
          acc2.2.openN + acc2.2.closedN = acc.2.openN + acc.2.closedN + 1))) := by
  constructor
  · intro items s e prs iss h
    exact get_stats_aux_old_le_open s e items (zeroCounters, zeroCounters)
      (prs, iss) h (by simp [zeroCounters])
  · intro s e acc item c acc2 hca hw1 hw2 hstate h
    simp only [stepItem, hca, hw1, hw2, Bool.and_self, if_pos] at h
    rcases hstate with hst | hst
    · rw [hst] at h
      simp only [beq_self_eq_true, if_pos] at h
      cases hold : is_old_pr c e (itemTypeOf item) with
      | none => rw [hold] at h; simp at h
      | some old =>
        rw [hold] at h
        simp only [Option.some.injEq] at h
        subst h
        cases hpr : item.pull_request <;>
          simp [itemTypeOf, hpr, updateByType, recordOpen] <;> omega
    · rw [hst] at h
      have hne : (((some ("closed") : Option String)) == some ("open")) = false := by
        decide
      rw [hne] at h
      simp only [Bool.false_eq_true, if_false, beq_self_eq_true, if_pos,
        Option.some.injEq] at h
      subst h
      cases hpr : item.pull_request <;>
        simp [itemTypeOf, hpr, updateByType, recordClosed] <;> omega

/-- Witness for claim C7 at a concrete run and a concrete step. -/
theorem gh_c7_witness :
    ((⟨2, 0, 1⟩ : Counters).oldN ≤ (⟨2, 0, 1⟩ : Counters).openN ∧
      (⟨1, 1, 1⟩ : Counters).oldN ≤ (⟨1, 1, 1⟩ : Counters).openN) ∧
    (zeroCounters = zeroCounters ∧
      (⟨0, 1, 0⟩ : Counters).openN + (⟨0, 1, 0⟩ : Counters).closedN =
        zeroCounters.openN + zeroCounters.closedN + 1) := by
  constructor
  · exact gh_c7_old_subset_invariants.1
      [⟨some ("2021-02-09T00:00:00Z"), some ("open"), false⟩,
       ⟨some ("2020-06-15T00:00:00Z"), some ("closed"), false⟩,
       ⟨some ("2021-01-20T00:00:00Z"), some ("open"), true⟩,
       ⟨some ("2021-02-24T00:00:00Z"), some ("open"), true⟩]
      ("2020-01-01T00:00:00Z") ("2021-03-01T00:00:00Z") ⟨2, 0, 1⟩ ⟨1, 1, 1⟩
      (by decide)
  · exact (gh_c7_old_subset_invariants.2 ("2020-01-01T00:00:00Z")
      ("2021-03-01T00:00:00Z") (zeroCounters, zeroCounters)
      ⟨some ("2020-06-15T00:00:00Z"), some ("closed"), true⟩
      ("2020-06-15T00:00:00Z") ((⟨0, 1, 0⟩ : Counters), zeroCounters) rfl
      (by decide) (by decide) (Or.inr rfl) (by decide)).1 rfl

/-! ## The paginated fetcher

Source lines 59 to 76.  The network is abstracted as a function from a
url to the response it returns; a response carries the HTTP status, the
decoded body (none when the response text is not valid JSON, in which
case json.loads raises before any status check), and the url of the next
page taken from the link headers, with the empty string when absent (the
double dict.get default on line 69).  The while loop is modelled with
explicit fuel, since cyclic link headers would make it run forever; the
hang outcome marks exhausted fuel.  The second component of the result
instruments the loop with the list of urls actually requested. -/

structure Resp (α : Type) where
  status : Nat
  body : Option (List α)
  nextUrl : String

inductive FetchOutcome (α : Type) where
  | ok : List α → FetchOutcome α
  | branchNotFound : FetchOutcome α
  | rateLimit : FetchOutcome α
  | authFail : FetchOutcome α
  | jsonFail : FetchOutcome α
  | hang : FetchOutcome α
  deriving DecidableEq

/-- get_items_list, source lines 59 to 76: extend the accumulated list
with the decoded body, read the next url, then map statuses 404, 403 and
401 to the three typed errors, in that order, and otherwise continue
with the next url until it is empty. -/
def get_items_list {α : Type} (fetch : String → Resp α) :
    Nat → String → List α → FetchOutcome α × List String
  | 0, url, acc => if url = "" then (.ok acc, []) else (.hang, [])
  | fuel + 1, url, acc =>
    if url = "" then (.ok acc, [])
    else
      let r := fetch url
      match r.body with
      | none => (.jsonFail, [url])
      | some items =>
        let items_list := acc ++ items
        let url2 := r.nextUrl
        if r.status = 404 then (.branchNotFound, [url])
        else if r.status = 403 then (.rateLimit, [url])
        else if r.status = 401 then (.authFail, [url])
        else
          let res := get_items_list fetch fuel url2 items_list
          (res.1, url :: res.2)

/-- Claim C5: when a requested page answers with HTTP 404, 403 or 401
and its body decodes as JSON, the fetch raises the matching typed error
(branch not found, rate limit, wrong credentials) and requests no
further page: the only url ever requested is the erroring one.  The
final conjunct records that the body is consumed before the status
check: a page whose body is not valid JSON raises the decode error even
when its status is one of the three mapped codes. -/
theorem gh_c5_error_stops {α : Type} (fetch : String → Resp α) (fuel : Nat)
    (url : String) (acc : List α) (h : ¬ url = "") :
    ((fetch url).body.isSome = true →
      (((fetch url).status = 404 →
        get_items_list fetch (fuel + 1) url acc = (.branchNotFound, [url])) ∧
       ((fetch url).status = 403 →
        get_items_list fetch (fuel + 1) url acc = (.rateLimit, [url])) ∧
       ((fetch url).status = 401 →
        get_items_list fetch (fuel + 1) url acc = (.authFail, [url])))) ∧
    ((fetch url).body = none →
      get_items_list fetch (fuel + 1) url acc = (.jsonFail, [url])) := by
  constructor
  · intro hb
    obtain ⟨items, hbody⟩ := Option.isSome_iff_exists.mp hb
    refine ⟨?_, ?_, ?_⟩ <;> intro hs <;>
      simp [get_items_list, h, hbody, hs]
  · intro hbody
    simp [get_items_list, h, hbody]

/-- Witness for claim C5 at a concrete fetch function. -/
theorem gh_c5_witness :
    get_items_list (fun _ => (⟨404, some [(1 : Nat)], "next"⟩ : Resp Nat)) 1
      ("start") [] = (.branchNotFound, [("start")]) := by
  exact ((gh_c5_error_stops (fun _ => (⟨404, some [(1 : Nat)], "next"⟩ : Resp Nat))
    0 ("start") [] (by decide)).1 (by decide)).1 rfl

/-! ## The query string builder

Source lines 55 to 56.  The keyword arguments are an ordered list of
name and value pairs; the values that occur at the call sites are
strings and one integer, both covered by the value type below.  The
condition of the conditional expression tests the kwargs dict itself,
not the filtered list, so any nonempty argument list produces the
question mark even when every value is falsy. -/

inductive PVal where
  | str : String → PVal
  | int : Int → PVal
  deriving DecidableEq, Repr

/-- Python truthiness of a parameter value. -/
def pvTruthy : PVal → Bool
  | .str s => !(s == "")
  | .int n => !(n == 0)

/-- The rendering of a value inside the format string. -/
def pvStr : PVal → String
  | .str s => s
  | .int n => toString n

/-- Python str.join on a list of strings. -/
def pyJoin (sep : String) : List String → String
  | [] => ""
  | x :: xs => xs.foldl (fun acc y => acc ++ sep ++ y) x

/-- make_params, source lines 55 to 56. -/
def make_params (kwargs : List (String × PVal)) : String :=
  if !kwargs.isEmpty then
    "?" ++ pyJoin ("&") ((kwargs.filter (fun kv => pvTruthy kv.2)).map
      (fun kv => kv.1 ++ ("=") ++ pvStr kv.2))
  else ""

/-- Straightforward recursive join, used on the specification side. -/
def specJoin (sep : String) : List String → String
  | [] => ""
  | [x] => x
  | x :: y :: xs => x ++ sep ++ specJoin sep (y :: xs)

theorem specJoin_shift (sep a b : String) (ys : List String) :
    specJoin sep ((a ++ sep ++ b) :: ys) = a ++ sep ++ specJoin sep (b :: ys) := by
  cases ys <;> simp [specJoin, String.append_assoc]

theorem pyJoin_foldl (sep : String) (xs : List String) :
    ∀ x, xs.foldl (fun acc y => acc ++ sep ++ y) x = specJoin sep (x :: xs) := by
  induction xs with
  | nil => intro x; rfl
  | cons y ys ih =>
    intro x
    rw [List.foldl_cons, ih (x ++ sep ++ y), specJoin_shift]
    rfl

theorem pyJoin_eq_specJoin (sep : String) (l : List String) :
    pyJoin sep l = specJoin sep l := by
  cases l with
  | nil => rfl
  | cons x xs => exact pyJoin_foldl sep xs x

/-- Claim C8 (counterexample): a keyword list holding a single falsy
parameter has no parameter with a non-falsy value, yet the builder
returns the bare question mark instead of the empty string the claim
requires, because the conditional tests the kwargs dict, not the
filtered list. -/
theorem gh_c8_counterexample :
    make_params [(("x"), PVal.str (""))] = "?" ∧
    List.filter (fun kv => pvTruthy kv.2) [(("x"), PVal.str (""))] = [] := by
  constructor <;> rfl

/-- Claim C8 (amended): the builder joins the key equals value pairs of
exactly the parameters with non-falsy values with ampersands, and
prefixes a question mark if and only if the keyword list itself is
nonempty, falsy values included; the result is the empty string exactly
when no parameter at all was passed. -/
theorem gh_c8_amended :
    (∀ kwargs : List (String × PVal),
      make_params kwargs =
        if kwargs.isEmpty then ""
        else "?" ++ specJoin ("&") ((kwargs.filter (fun kv => pvTruthy kv.2)).map
          (fun kv => kv.1 ++ ("=") ++ pvStr kv.2))) ∧
    (∀ kwargs : List (String × PVal),
      (make_params kwargs).data.head? = some '?' ↔ ¬ kwargs = []) := by
  constructor
  · intro kwargs
    by_cases hk : kwargs.isEmpty <;> simp [make_params, hk, pyJoin_eq_specJoin]
  · intro kwargs
    by_cases hk : kwargs = []
    · subst hk
      simp [make_params]
    · have hne : kwargs.isEmpty = false := by
        simpa [List.isEmpty_eq_false] using hk
      have hq : ("?").data = ['?'] := rfl
      simp [make_params, hne, String.data_append, hq, hk]

end GhStats
